import Mathlib

/- Verification development for scripts/generate_blog.py.

   The script is embedded shallowly over `List Char`: Python string
   operations (`str.split`, `str.replace`, `re.sub` with the three literal
   lazy patterns used by the script, `re.findall(r'\w+')`, f-string
   interpolation) are modelled as executable Lean functions, and the
   top-level routine `generate_blog` is modelled as a function from its
   inputs (API key presence, template text, parsed backend response,
   prior blogs.json parse result, sitemap text, current date) to the list
   of file writes it performs together with an optional uncaught Python
   exception. -/

namespace SC

/-- Strings are modelled as lists of characters. -/
abbrev Str := List Char

/-- Convert a Lean string literal to the model type. -/
def str (s : String) : Str := s.toList

/-! ### Generic Python string primitives -/

/-- Prepend characters onto the first piece of a split result. -/
def prependFirst (x : Str) : List Str → List Str
  | [] => [x]
  | p :: ps => (x ++ p) :: ps

/-- Fuel-driven worker for Python `str.split(sep)` with a nonempty
separator: scan left to right, splitting at each non-overlapping
occurrence of the separator. -/
def pySplitGo (pat : Str) : Nat → Str → List Str
  | 0, s => [s]
  | fuel + 1, s =>
    if pat.isPrefixOf s then
      [] :: pySplitGo pat fuel (s.drop pat.length)
    else
      match s with
      | [] => [[]]
      | c :: cs => prependFirst [c] (pySplitGo pat fuel cs)

/-- Python `s.split(sep)` for a nonempty separator. -/
def pySplit (pat s : Str) : List Str := pySplitGo pat (s.length + 1) s

/-- Python `sep.join(pieces)`. -/
def joinWith (sep : Str) : List Str → Str
  | [] => []
  | [p] => p
  | p :: q :: ps => p ++ sep ++ joinWith sep (q :: ps)

/-- Python `s.replace(pat, rep)` for a nonempty `pat`: replace every
non-overlapping occurrence, scanning left to right (equivalently,
`rep.join(s.split(pat))`). -/
def pyReplaceAll (pat rep s : Str) : Str := joinWith rep (pySplit pat s)

/-- Does `pat` occur as a contiguous substring of `s` (i.e. as a prefix
of some suffix)?  Model of the Python `in` operator on strings. -/
def containsSub (pat : Str) : Str → Bool
  | [] => pat.isPrefixOf ([] : Str)
  | c :: cs => pat.isPrefixOf (c :: cs) || containsSub pat cs

/-- Number of suffixes of `s` of which `pat` is a prefix, i.e. the number
of positions at which `pat` occurs.  For patterns that cannot overlap
themselves (all patterns counted in this development) this is the number
of non-overlapping occurrences. -/
def countOcc (pat : Str) : Str → Nat
  | [] => if pat.isPrefixOf ([] : Str) then 1 else 0
  | c :: cs => (if pat.isPrefixOf (c :: cs) then 1 else 0) + countOcc pat cs

/-! ### The three lazy regex substitutions of lines 85-87

Each pattern used by the script has the shape
`literal-head ++ .*? ++ literal-tail` where `.` does not match a newline
(DOTALL is not set).  `lazyTail tail t` finds the shortest non-newline
middle such that `t = middle ++ tail ++ rest` and returns `rest`. -/

/-- Lazy (`.*?`) search for the literal tail of one of the script's regex
patterns: try the empty middle first, else consume one non-newline
character and retry. -/
def lazyTail (suf : Str) : Str → Option Str
  | [] => if suf.isPrefixOf ([] : Str) then some [] else none
  | c :: ts =>
    if suf.isPrefixOf (c :: ts) then some ((c :: ts).drop suf.length)
    else if c = '\n' then none
    else lazyTail suf ts

/-- Fuel-driven worker modelling `re.sub` (which replaces every
non-overlapping match) for a pattern `pre ++ .*? ++ suf` with an
already-expanded replacement `rep`. -/
def subAllGo (pre suf rep : Str) : Nat → Str → Str
  | 0, s => s
  | fuel + 1, s =>
    if pre.isPrefixOf s then
      match lazyTail suf (s.drop pre.length) with
      | some rest => rep ++ subAllGo pre suf rep fuel rest
      | none =>
        match s with
        | [] => []
        | c :: cs => c :: subAllGo pre suf rep fuel cs
    else
      match s with
      | [] => []
      | c :: cs => c :: subAllGo pre suf rep fuel cs

/-- All-occurrence substitution for a pattern `pre ++ .*? ++ suf`. -/
def pySub (pre suf rep s : Str) : Str := subAllGo pre suf rep s.length s

/-- Python `re` replacement-template expansion with zero capture groups
(the script's patterns have none), as performed by `re.sub` on its string
replacement argument: the escapes of `re._parse_template`.  `\a \b \f \n
\r \t \v \\` expand to control characters, `\1`..`\9` are invalid group
references (the pattern has no groups), a bare `\g` or any `\g<...>`
named reference is likewise an error here (group 0, the whole match, is
not modelled: no replacement used by the script or by any theorem below
references it), any other ASCII-letter escape is a bad escape, a trailing
lone backslash is a bad escape, `\0` is an octal escape for NUL (further
octal digits not modelled), and a backslash before any other character is
kept verbatim together with the backslash. -/
def expandReplGo : Bool → Str → Except Unit Str
  | false, [] => .ok []
  | true, [] => .error ()
  | false, c :: cs =>
    if c = '\\' then expandReplGo true cs
    else (fun t => c :: t) <$> expandReplGo false cs
  | true, d :: ds =>
    if d = 'a' then (fun t => '\x07' :: t) <$> expandReplGo false ds
    else if d = 'b' then (fun t => '\x08' :: t) <$> expandReplGo false ds
    else if d = 'f' then (fun t => '\x0c' :: t) <$> expandReplGo false ds
    else if d = 'n' then (fun t => '\n' :: t) <$> expandReplGo false ds
    else if d = 'r' then (fun t => '\x0d' :: t) <$> expandReplGo false ds
    else if d = 't' then (fun t => '\t' :: t) <$> expandReplGo false ds
    else if d = 'v' then (fun t => '\x0b' :: t) <$> expandReplGo false ds
    else if d = '\\' then (fun t => '\\' :: t) <$> expandReplGo false ds
    else if d = '0' then (fun t => '\x00' :: t) <$> expandReplGo false ds
    else if d.isDigit then .error ()
    else if d = 'g' then .error ()
    else if d.isAlpha then .error ()
    else (fun t => '\\' :: d :: t) <$> expandReplGo false ds

/-- Expansion of a whole replacement template; the Boolean state of
`expandReplGo` records a pending backslash. -/
def expandRepl (s : Str) : Except Unit Str := expandReplGo false s

/-! ### Python errors and the script's literals -/

/-- Uncaught Python exceptions the script can raise. -/
inductive PyErr where
  | indexError
  | keyError
  | typeError
  | attributeError
  | reError
deriving DecidableEq

instance {ε α : Type} [DecidableEq ε] [DecidableEq α] :
    DecidableEq (Except ε α) := fun x y =>
  match x, y with
  | .ok a, .ok b =>
    if h : a = b then .isTrue (by subst h; rfl) else .isFalse (by simp [h])
  | .error a, .error b =>
    if h : a = b then .isTrue (by subst h; rfl) else .isFalse (by simp [h])
  | .ok _, .error _ => .isFalse (by simp)
  | .error _, .ok _ => .isFalse (by simp)

/-- Expand the replacement template, then substitute; a bad template
raises `re.error` before any match is attempted. -/
def reSub (pre suf repl s : Str) : Except PyErr Str :=
  match expandRepl repl with
  | .error _ => .error .reError
  | .ok rep => .ok (pySub pre suf rep s)

/-- Line 33: the content-area start marker used to split the template. -/
def startMarker : Str := str "<section class=\"about\">"

/-- Line 34: the related-articles end marker used to split the template. -/
def endMarker : Str :=
  str "</ul>\n            </div>\n        </div>\n    </section>"

/-- Line 36: wrapper fragment re-appended to the header. -/
def reopenFrag : Str :=
  str "<section class=\"about\">\n        <div class=\"about-content\">"

/-- Line 37: related-articles opening fragment prepended to the footer. -/
def relatedFrag : Str :=
  str "\n            <div class=\"article-body\">\n                <h3>Related articles</h3>\n                <ul>\n"

/-- Literal head of the pattern of line 85. -/
def titlePre : Str := str "<title>"

/-- Literal tail of the pattern of line 85. -/
def titleSuf : Str := str "</title>"

/-- Literal head of the pattern of line 86. -/
def metaTitlePre : Str := str "<meta name=\"title\" content=\""

/-- Literal head of the pattern of line 87. -/
def metaDescPre : Str := str "<meta name=\"description\" content=\""

/-- Literal tail of the patterns of lines 86 and 87. -/
def attrSuf : Str := str "\">"

/-! ### Reading time (lines 81-82) -/

/-- Count the maximal runs of characters satisfying `p`; the Boolean
records whether the previous character was inside a run. -/
def countRunsGo (p : Char → Bool) : Bool → Str → Nat
  | _, [] => 0
  | inRun, c :: cs =>
    if p c then (if inRun then 0 else 1) + countRunsGo p true cs
    else countRunsGo p false cs

/-- ASCII model of the regex class `\w`. -/
def wordChar (c : Char) : Bool := c.isAlphanum || c = '_'

/-- Line 81: `len(re.findall(r'\w+', content))`, the number of maximal
runs of word characters. -/
def wordCount (s : Str) : Nat := countRunsGo wordChar false s

/-- Exact-rational model of Python `round(n / 200)` (floats are exact on
the relevant values; Python rounds halves to even). -/
def roundDiv200 (n : Nat) : Nat :=
  if n % 200 < 100 then n / 200
  else if 100 < n % 200 then n / 200 + 1
  else if n / 200 % 2 = 0 then n / 200 else n / 200 + 1

/-- Line 82: `max(1, round(word_count / 200))`. -/
def readTime (content : Str) : Nat := max 1 (roundDiv200 (wordCount content))

/-- Follows the spec's words (not the source): "word_count counts
whitespace-delimited tokens" - the number of maximal runs of
non-whitespace characters, i.e. `len(content.split())`. -/
def specTokenCount (s : Str) : Nat := countRunsGo (fun c => !c.isWhitespace) false s

/-! ### JSON values and field access -/

/-- JSON values as produced by `json.loads`.  Numbers are modelled as
integers: no claim involves numeric fields. -/
inductive Json where
  | null
  | bool (b : Bool)
  | num (n : Int)
  | str (s : Str)
  | arr (elems : List Json)
  | obj (fields : List (Str × Json))

/-- First-match association lookup (JSON objects are modelled with
distinct keys; `json.loads` would keep the last duplicate). -/
def lookupF : List (Str × Json) → Str → Option Json
  | [], _ => none
  | (k, v) :: rest, key => if k = key then some v else lookupF rest key

/-- Python `data[key]` on a dict: `KeyError` when the key is absent. -/
def getF (fs : List (Str × Json)) (k : Str) : Except PyErr Json :=
  match lookupF fs k with
  | some v => .ok v
  | none => .error .keyError

/-- Python `str(value)` as used by f-string interpolation, faithful for
strings, integers, booleans and None.  The container cases are
placeholders: Python's repr of lists/dicts is not modelled, and every
theorem below hypothesises string values for the fields it interpolates
(content_html is additionally forced to a string by `asPyStr`, mirroring
line 81). -/
def fmt : Json → Str
  | .str s => s
  | .num n => (toString n).toList
  | .bool true => str "True"
  | .bool false => str "False"
  | .null => str "None"
  | .arr _ => str "<list>"
  | .obj _ => str "<dict>"

/-- Python `data.get(key, '')` followed by f-string interpolation. -/
def getD (fs : List (Str × Json)) (k : Str) : Str :=
  match lookupF fs k with
  | some v => fmt v
  | none => []

/-- Decimal rendering of the reading time, `f"{read_time}"`. -/
def natStr (n : Nat) : Str := (Nat.repr n).toList

/-! ### The script's components -/

/-- Lines 33-37: derive header and footer from the template by string
splitting.  `header_parts[0]` always exists, so a missing start marker is
silently tolerated; `footer_parts[1]` raises `IndexError` exactly when
the end marker is absent. -/
def extractLayout (template : Str) : Except PyErr (Str × Str) :=
  match (pySplit endMarker template)[1]? with
  | none => .error .indexError
  | some fp1 =>
    .ok ((pySplit startMarker template).headD [] ++ reopenFrag,
         relatedFrag ++ fp1)

/-- Lines 94-100: the social-footnote block. -/
def socialFrag (sp sc : Str) : Str :=
  str "\n                <hr style=\"margin: 3rem 0 2rem; border: 0; border-top: 1px solid rgba(255,255,255,0.2);\">\n                <div class=\"social-footnote\" style=\"font-size: 0.85rem; opacity: 0.8; line-height: 1.4;\">\n                    <p><strong>Social Media Poster Text:</strong><br>"
  ++ sp
  ++ str "</p>\n                    <p style=\"margin-top: 1rem;\"><strong>Social Media Caption:</strong><br>"
  ++ sc
  ++ str "</p>\n                </div>\n    "

/-- Line 81: `re.findall(r'\w+', value)` requires a string argument and
raises `TypeError` ("expected string or bytes-like object") for any
other value. -/
def asPyStr : Json → Except PyErr Str
  | .str s => .ok s
  | _ => .error .typeError

/-- Lines 81-102: assemble the page text from header, footer and the
response fields, with field accesses and substitutions in source order
(content_html at line 81, where `re.findall` raises `TypeError` for a
non-string value, title at line 85, title again at line 86, description
at line 87, the `.get` defaults at lines 97-98).  Line 91 re-reads
`data['content_html']`, which line 81 already proved to be a string. -/
def assembleRest (header footer : Str) (fs : List (Str × Json)) :
    Except PyErr Str := do
  let content ← getF fs (str "content_html")
  let contentS ← asPyStr content
  let rt := readTime contentS
  let title ← getF fs (str "title")
  let p1 ← reSub titlePre titleSuf
    (str "<title>" ++ fmt title ++ str " | StampCircle</title>") header
  let _ ← getF fs (str "title")
  let p2 ← reSub metaTitlePre attrSuf
    (str "<meta name=\"title\" content=\"" ++ fmt title ++ str "\">") p1
  let desc ← getF fs (str "description")
  let p3 ← reSub metaDescPre attrSuf
    (str "<meta name=\"description\" content=\"" ++ fmt desc ++ str "\">") p2
  return p3
    ++ str "\n            <h1 class=\"section-title\">" ++ fmt title ++ str "</h1>"
    ++ str "\n            <p style=\"opacity: 0.9; margin-bottom: 3rem; font-size: 1.1rem;\">⏱️ "
    ++ natStr rt ++ str " min read</p>"
    ++ str "\n            <div class=\"article-body\">\n" ++ contentS ++ str "\n"
    ++ socialFrag (getD fs (str "social_poster_text")) (getD fs (str "social_caption"))
    ++ footer

/-- POSIX `os.path.join(a, b)` as used at line 78: an absolute second
component discards the first; otherwise the two are joined with a
separator (the script's first component, `"blog"`, has no trailing
slash, and `os.path.join(a, "")` is `a` plus a separator). -/
def osPathJoin (a b : Str) : Str :=
  match b with
  | [] => a ++ ['/']
  | c :: cs => if c = '/' then c :: cs else a ++ ('/' :: (c :: cs))

/-- Lines 116-125: load the prior index, treating a missing or
unparseable file as the empty list, and insert the new entry at position
0.  A parseable non-list value reaches `posts.insert` and raises
`AttributeError`. -/
def updateIndex (prior : Except Unit Json) (newPost : Json) :
    Except PyErr Json :=
  match (match prior with | .error _ => Json.arr [] | .ok j => j) with
  | .arr xs => .ok (.arr (newPost :: xs))
  | _ => .error .attributeError

/-- Lines 132-136: the new sitemap `<url>` block. -/
def urlBlock (newFilename today : Str) : Str :=
  str "  <url>\n    <loc>https://stampcircle.com/blog/" ++ newFilename
  ++ str "</loc>\n    <lastmod>" ++ today
  ++ str "</lastmod>\n    <priority>0.80</priority>\n  </url>"

/-- Lines 138-142: if the closing tag occurs, replace every occurrence of
`</urlset>` by the new block followed by `</urlset>` and report the new
text; otherwise skip the step. -/
def updateSitemap (sitemap newFilename today : Str) : Option Str :=
  if containsSub (str "</urlset>") sitemap then
    some (pyReplaceAll (str "</urlset>")
      (urlBlock newFilename today ++ str "\n</urlset>") sitemap)
  else none

/-- A file write performed by the script: blogs.json receives a JSON
value (`json.dump`), the page and the sitemap receive text. -/
inductive FileData where
  | text (s : Str)
  | json (j : Json)

/-- One file write: target path and written data. -/
structure FileWrite where
  path : Str
  data : FileData

/-- The inputs of one invocation: presence of the API key, template text,
result of `json.loads` on the backend response (error = unparseable),
result of reading and parsing blogs.json (error = missing or unparseable
file), sitemap text, and today's date string. -/
structure RunInput where
  hasApiKey : Bool
  template : Str
  response : Except Unit Json
  blogsJson : Except Unit Json
  sitemap : Str
  today : Str

/-- The whole routine `generate_blog`: the list of file writes performed,
in order, together with the uncaught exception terminating the run, if
any.  A missing API key and an unparseable response are handled (printed)
and produce a clean early return. -/
def generateBlog (inp : RunInput) : List FileWrite × Option PyErr :=
  if inp.hasApiKey = false then ([], none)
  else
    match extractLayout inp.template with
    | .error e => ([], some e)
    | .ok (header, footer) =>
      match inp.response with
      | .error _ => ([], none)
      | .ok (.obj fs) =>
        match getF fs (str "slug") with
        | .error e => ([], some e)
        | .ok slugJ =>
          let newFilename := fmt slugJ ++ str ".html"
          let pagePath := osPathJoin (str "blog") newFilename
          match assembleRest header footer fs with
          | .error e => ([], some e)
          | .ok page =>
            let w1 : FileWrite := ⟨pagePath, .text page⟩
            match getF fs (str "title") with
            | .error e => ([w1], some e)
            | .ok titleJ =>
              match getF fs (str "category") with
              | .error e => ([w1], some e)
              | .ok catJ =>
                match getF fs (str "excerpt") with
                | .error e => ([w1], some e)
                | .ok excJ =>
                  let newPost : Json := .obj
                    [(str "title", titleJ),
                     (str "href", .str (str "blog/" ++ newFilename)),
                     (str "category", catJ),
                     (str "excerpt", excJ)]
                  match updateIndex inp.blogsJson newPost with
                  | .error e => ([w1], some e)
                  | .ok newList =>
                    let w2 : FileWrite := ⟨str "blogs.json", .json newList⟩
                    match updateSitemap inp.sitemap newFilename inp.today with
                    | some sm =>
                      ([w1, w2, ⟨str "sitemap.xml", .text sm⟩], none)
                    | none => ([w1, w2], none)
      | .ok _ => ([], some .typeError)

/-! ### Groundwork lemmas about the string primitives -/

theorem isPrefixOf_append_self (p r : Str) : p.isPrefixOf (p ++ r) = true := by
  induction p with
  | nil => simp
  | cons c cs ih => simp [List.cons_append, List.isPrefixOf_cons₂, ih]

theorem isPrefixOf_length_le {p s : Str} (h : p.isPrefixOf s = true) :
    p.length ≤ s.length := by
  induction p generalizing s with
  | nil => simp
  | cons c cs ih =>
    cases s with
    | nil => simp at h
    | cons d ds =>
      simp only [List.isPrefixOf_cons₂, Bool.and_eq_true] at h
      simpa using ih h.2

theorem isPrefixOf_append_cases {p x y : Str}
    (h : p.isPrefixOf (x ++ y) = true) :
    p.isPrefixOf x = true ∨ x.isPrefixOf p = true := by
  induction p generalizing x with
  | nil => left; simp
  | cons c cs ih =>
    cases x with
    | nil => right; simp
    | cons d ds =>
      simp only [List.cons_append, List.isPrefixOf_cons₂, Bool.and_eq_true,
        beq_iff_eq] at h ⊢
      rcases ih h.2 with h2 | h2
      · exact Or.inl ⟨h.1, h2⟩
      · exact Or.inr ⟨h.1.symm, h2⟩

theorem isPrefixOf_of_append_left {u v p : Str}
    (h : (u ++ v).isPrefixOf p = true) : u.isPrefixOf p = true := by
  induction u generalizing p with
  | nil => simp
  | cons c cs ih =>
    cases p with
    | nil => simp at h
    | cons d ds =>
      simp only [List.cons_append, List.isPrefixOf_cons₂, Bool.and_eq_true] at h ⊢
      exact ⟨h.1, ih h.2⟩

theorem isPrefixOf_append_of_le {p m : Str} (b : Str)
    (h : p.length ≤ m.length) : p.isPrefixOf (m ++ b) = p.isPrefixOf m := by
  induction p generalizing m with
  | nil => simp
  | cons c cs ih =>
    cases m with
    | nil => simp at h
    | cons d ds =>
      simp only [List.cons_append, List.isPrefixOf_cons₂]
      rw [ih (by simpa using h)]

theorem isPrefixOf_split {p m : Str} (b : Str) (hlt : m.length < p.length)
    (h : p.isPrefixOf (m ++ b) = true) :
    m.isPrefixOf p = true ∧ (p.drop m.length).isPrefixOf b = true := by
  induction m generalizing p with
  | nil => exact ⟨by simp, h⟩
  | cons d ds ih =>
    cases p with
    | nil => simp at hlt
    | cons c cs =>
      simp only [List.cons_append, List.isPrefixOf_cons₂, Bool.and_eq_true,
        beq_iff_eq] at h
      have step := ih (by simpa using hlt) h.2
      simp only [List.isPrefixOf_cons₂, Bool.and_eq_true, beq_iff_eq,
        List.length_cons, List.drop_succ_cons]
      exact ⟨⟨h.1.symm, step.1⟩, step.2⟩

/-- A conservative decidable sufficient condition for a scanner looking
for `pat` to pass over `x` without a match, whatever text follows `x`:
no suffix of `x` has `pat` as a prefix, and no suffix of `x` is a prefix
of `pat` (so no match can start inside `x`, even one extending past its
end). -/
def passable (pat : Str) : Str → Bool
  | [] => true
  | c :: cs =>
    !pat.isPrefixOf (c :: cs) && !(c :: cs).isPrefixOf pat && passable pat cs

theorem passable_cons_iff {pat : Str} {c : Char} {cs : Str} :
    passable pat (c :: cs) = true ↔
      pat.isPrefixOf (c :: cs) = false ∧ (c :: cs).isPrefixOf pat = false ∧
        passable pat cs = true := by
  simp only [passable, Bool.and_eq_true, Bool.not_eq_true']
  tauto

/-- From `passable` at a nonempty string: the scanner does not match here,
whatever follows. -/
theorem not_isPrefixOf_of_passable {pat x y : Str} (hx : passable pat x = true)
    (hne : x ≠ []) : pat.isPrefixOf (x ++ y) = false := by
  cases x with
  | nil => exact absurd rfl hne
  | cons c cs =>
    rw [passable_cons_iff] at hx
    by_contra h
    simp only [Bool.not_eq_false] at h
    rcases isPrefixOf_append_cases (x := c :: cs) h with h2 | h2
    · rw [hx.1] at h2; exact Bool.false_ne_true h2
    · rw [hx.2.1] at h2; exact Bool.false_ne_true h2

theorem passable_append {pat x y : Str} (hx : passable pat x = true)
    (hy : passable pat y = true) : passable pat (x ++ y) = true := by
  induction x with
  | nil => simpa using hy
  | cons c cs ih =>
    rw [passable_cons_iff] at hx
    have ihh := ih hx.2.2
    rw [List.cons_append, passable_cons_iff]
    rw [← List.cons_append]
    refine ⟨not_isPrefixOf_of_passable (by rw [passable_cons_iff]; exact hx) (by simp), ?_, ?_⟩
    · by_contra hne
      simp only [Bool.not_eq_false] at hne
      have := isPrefixOf_of_append_left (u := c :: cs) (v := y) hne
      rw [hx.2.1] at this; exact Bool.false_ne_true this
    · simpa using ihh

theorem passable_of_headFree {c0 : Char} (pt : Str) {x : Str}
    (hx : x.all (fun c => c ≠ c0) = true) : passable (c0 :: pt) x = true := by
  induction x with
  | nil => rfl
  | cons c cs ih =>
    simp only [List.all_cons, Bool.and_eq_true, decide_eq_true_eq] at hx
    rw [passable_cons_iff]
    refine ⟨?_, ?_, ih hx.2⟩
    · simp only [List.isPrefixOf_cons₂, Bool.and_eq_false_iff, beq_eq_false_iff_ne]
      exact Or.inl (fun h => hx.1 h.symm)
    · simp only [List.isPrefixOf_cons₂, Bool.and_eq_false_iff, beq_eq_false_iff_ne]
      exact Or.inl hx.1

/-! ### Split scanner lemmas -/

theorem prependFirst_ne_nil (x : Str) (l : List Str) :
    prependFirst x l ≠ [] := by
  cases l <;> simp [prependFirst]

theorem pySplitGo_ne_nil (pat : Str) (fuel : Nat) (s : Str) :
    pySplitGo pat fuel s ≠ [] := by
  cases fuel with
  | zero => simp [pySplitGo]
  | succ f =>
    simp only [pySplitGo]
    split
    · simp
    · cases s with
      | nil => simp
      | cons c cs => exact prependFirst_ne_nil _ _

theorem pySplitGo_nil {pat : Str} (hp : pat ≠ []) (fuel : Nat) :
    pySplitGo pat fuel [] = [[]] := by
  cases fuel with
  | zero => rfl
  | succ f =>
    cases pat with
    | nil => exact absurd rfl hp
    | cons c cs => simp [pySplitGo]

theorem pySplitGo_passable {pat : Str} :
    ∀ {x : Str}, passable pat x = true →
    ∀ (fuel : Nat) (y : Str),
      pySplitGo pat (x.length + fuel) (x ++ y) =
        prependFirst x (pySplitGo pat fuel y) := by
  intro x
  induction x with
  | nil =>
    intro _ fuel y
    simp only [List.length_nil, Nat.zero_add, List.nil_append]
    cases h : pySplitGo pat fuel y with
    | nil => exact absurd h (pySplitGo_ne_nil pat fuel y)
    | cons p ps => simp [prependFirst]
  | cons c cs ih =>
    intro hx fuel y
    have hpre : pat.isPrefixOf ((c :: cs) ++ y) = false :=
      not_isPrefixOf_of_passable hx (by simp)
    have hx' : passable pat cs = true := (passable_cons_iff.mp hx).2.2
    have step := ih hx' fuel y
    simp only [List.length_cons]
    rw [show cs.length + 1 + fuel = (cs.length + fuel) + 1 by omega]
    rw [List.cons_append]
    simp only [pySplitGo]
    rw [show ((c :: (cs ++ y)) : Str) = (c :: cs) ++ y from rfl, hpre]
    simp only [Bool.false_eq_true, if_false]
    rw [step]
    cases hres : pySplitGo pat fuel y with
    | nil => exact absurd hres (pySplitGo_ne_nil pat fuel y)
    | cons p ps => simp [prependFirst]

theorem pySplitGo_match (pat : Str) (fuel : Nat) (rest : Str) :
    pySplitGo pat (fuel + 1) (pat ++ rest) = [] :: pySplitGo pat fuel rest := by
  simp [pySplitGo, isPrefixOf_append_self, List.drop_left]

theorem pySplitGo_all_passable {pat s : Str} (hp : pat ≠ [])
    (hs : passable pat s = true) : ∀ fuel, pySplitGo pat fuel s = [s] := by
  induction s with
  | nil => intro fuel; exact pySplitGo_nil hp fuel
  | cons c cs ih =>
    intro fuel
    cases fuel with
    | zero => rfl
    | succ f =>
      have hpre : pat.isPrefixOf (c :: cs) = false := by
        have := not_isPrefixOf_of_passable (y := []) hs (by simp)
        simpa using this
      have hx' : passable pat cs = true := (passable_cons_iff.mp hs).2.2
      simp [pySplitGo, hpre, ih hx' f, prependFirst]

/-! ### containsSub lemmas -/

theorem pySplitGo_of_not_containsSub {pat s : Str}
    (h : containsSub pat s = false) : ∀ fuel, pySplitGo pat fuel s = [s] := by
  induction s with
  | nil =>
    intro fuel
    simp only [containsSub] at h
    cases fuel with
    | zero => rfl
    | succ f => simp [pySplitGo, h]
  | cons c cs ih =>
    intro fuel
    simp only [containsSub, Bool.or_eq_false_iff] at h
    cases fuel with
    | zero => rfl
    | succ f => simp [pySplitGo, h.1, ih h.2 f, prependFirst]

theorem containsSub_middle (pat a b : Str) :
    containsSub pat (a ++ pat ++ b) = true := by
  induction a with
  | nil =>
    cases hp : (pat ++ b : Str) with
    | nil =>
      have hpe : pat = [] := by
        cases pat with
        | nil => rfl
        | cons c cs => simp at hp
      subst hpe
      have hb : b = [] := by simpa using hp
      subst hb
      simp [containsSub]
    | cons c cs =>
      simp only [List.nil_append, List.append_assoc, hp, containsSub]
      rw [← hp, isPrefixOf_append_self]
      rfl
  | cons c cs ih =>
    simp only [List.cons_append, containsSub]
    simp only [List.append_assoc] at ih ⊢
    simp [ih]

/-! ### Substitution scanner lemmas -/

theorem subAllGo_nil {pre : Str} (suf rep : Str) (hp : pre ≠ []) (fuel : Nat) :
    subAllGo pre suf rep fuel [] = [] := by
  cases fuel with
  | zero => rfl
  | succ f =>
    cases pre with
    | nil => exact absurd rfl hp
    | cons c cs => simp [subAllGo]

theorem subAllGo_passable {pre suf rep : Str} :
    ∀ {x : Str}, passable pre x = true →
    ∀ (fuel : Nat) (y : Str),
      subAllGo pre suf rep (x.length + fuel) (x ++ y) =
        x ++ subAllGo pre suf rep fuel y := by
  intro x
  induction x with
  | nil => intro _ fuel y; simp
  | cons c cs ih =>
    intro hx fuel y
    have hpre : pre.isPrefixOf ((c :: cs) ++ y) = false :=
      not_isPrefixOf_of_passable hx (by simp)
    have hx' : passable pre cs = true := (passable_cons_iff.mp hx).2.2
    simp only [List.length_cons]
    rw [show cs.length + 1 + fuel = (cs.length + fuel) + 1 by omega]
    rw [List.cons_append]
    simp only [subAllGo]
    rw [show ((c :: (cs ++ y)) : Str) = (c :: cs) ++ y from rfl, hpre]
    simp only [Bool.false_eq_true, if_false]
    rw [ih hx' fuel y]
    rfl

theorem subAllGo_all_passable {pre suf rep : Str} (hp : pre ≠ []) :
    ∀ {s : Str}, passable pre s = true →
    ∀ fuel, subAllGo pre suf rep fuel s = s := by
  intro s
  induction s with
  | nil => intro _ fuel; exact subAllGo_nil suf rep hp fuel
  | cons c cs ih =>
    intro hs fuel
    cases fuel with
    | zero => rfl
    | succ f =>
      have hpre : pre.isPrefixOf (c :: cs) = false := by
        have := not_isPrefixOf_of_passable (y := []) hs (by simp)
        simpa using this
      have hx' : passable pre cs = true := (passable_cons_iff.mp hs).2.2
      simp [subAllGo, hpre, ih hx' f]

theorem lazyTail_append {suf : Str} (hsuf : suf ≠ []) :
    ∀ {m : Str}, passable suf m = true → m.all (fun c => c ≠ '\n') = true →
    ∀ r, lazyTail suf (m ++ (suf ++ r)) = some r := by
  intro m
  induction m with
  | nil =>
    intro _ _ r
    cases hs : suf with
    | nil => exact absurd hs hsuf
    | cons c cs =>
      rw [← hs]
      simp only [List.nil_append]
      cases hsr : (suf ++ r : Str) with
      | nil =>
        have : suf = [] := by
          cases suf with
          | nil => rfl
          | cons d ds => simp at hsr
        exact absurd this hsuf
      | cons d ds =>
        rw [← hsr]
        cases hq : (suf ++ r : Str) with
        | nil => rw [hq] at hsr; simp at hsr
        | cons e es =>
          rw [← hq]
          rw [show lazyTail suf (suf ++ r) =
            (if suf.isPrefixOf (suf ++ r) then some ((suf ++ r).drop suf.length)
             else if e = '\n' then none else lazyTail suf es) from by
              rw [hq]; rfl]
          rw [isPrefixOf_append_self]
          simp [List.drop_left]
  | cons c cs ih =>
    intro hm hnl r
    have hpre : suf.isPrefixOf ((c :: cs) ++ (suf ++ r)) = false :=
      not_isPrefixOf_of_passable hm (by simp)
    simp only [List.all_cons, Bool.and_eq_true, decide_eq_true_eq] at hnl
    have hx' : passable suf cs = true := (passable_cons_iff.mp hm).2.2
    rw [List.cons_append,
      show lazyTail suf (c :: (cs ++ (suf ++ r))) =
        (if suf.isPrefixOf (c :: (cs ++ (suf ++ r))) then
          some ((c :: (cs ++ (suf ++ r))).drop suf.length)
         else if c = '\n' then none
         else lazyTail suf (cs ++ (suf ++ r))) from rfl]
    rw [show ((c :: (cs ++ (suf ++ r))) : Str) = (c :: cs) ++ (suf ++ r) from rfl,
      hpre]
    simp only [Bool.false_eq_true, if_false, hnl.1, if_neg (hnl.1)]
    exact ih hx' hnl.2 r

theorem subAllGo_match {pre suf rep : Str} {m : Str}
    (hsuf : suf ≠ []) (hm : passable suf m = true)
    (hnl : m.all (fun c => c ≠ '\n') = true) (fuel : Nat) (r : Str) :
    subAllGo pre suf rep (fuel + 1) (pre ++ (m ++ (suf ++ r))) =
      rep ++ subAllGo pre suf rep fuel r := by
  simp only [subAllGo, isPrefixOf_append_self, List.drop_left, if_true]
  rw [lazyTail_append hsuf hm hnl r]

/-! ### Replacement-template expansion -/

theorem expandRepl_no_backslash :
    ∀ {s : Str}, s.all (fun c => c ≠ '\\') = true → expandRepl s = .ok s := by
  intro s
  induction s with
  | nil => intro _; rfl
  | cons c cs ih =>
    intro h
    simp only [List.all_cons, Bool.and_eq_true, decide_eq_true_eq] at h
    show expandReplGo false (c :: cs) = .ok (c :: cs)
    rw [expandReplGo, if_neg h.1]
    have := ih h.2
    rw [show expandReplGo false cs = expandRepl cs from rfl, this]
    rfl

theorem passable_of_head {pat x : Str} {c0 : Char} (hh : pat.head? = some c0)
    (hx : x.all (fun c => c ≠ c0) = true) : passable pat x = true := by
  cases pat with
  | nil => simp at hh
  | cons p ps =>
    simp only [List.head?_cons, Option.some.injEq] at hh
    subst hh
    exact passable_of_headFree ps hx

/-! ### Occurrence-counting lemmas -/

theorem countOcc_nil {pat : Str} (hp : pat ≠ []) : countOcc pat [] = 0 := by
  cases pat with
  | nil => exact absurd rfl hp
  | cons c cs => simp [countOcc]

theorem countOcc_append_of_agree {pat : Str} (hp : pat ≠ []) :
    ∀ {M b : Str},
      (∀ j, j < M.length →
        pat.isPrefixOf (M.drop j ++ b) = pat.isPrefixOf (M.drop j)) →
      countOcc pat (M ++ b) = countOcc pat M + countOcc pat b := by
  intro M
  induction M with
  | nil => intro b _; simp [countOcc_nil hp]
  | cons c cs ih =>
    intro b hagree
    have h0 := hagree 0 (by simp)
    simp only [List.drop_zero] at h0
    have hrest : ∀ j, j < cs.length →
        pat.isPrefixOf (cs.drop j ++ b) = pat.isPrefixOf (cs.drop j) := by
      intro j hj
      have := hagree (j + 1) (by simpa using Nat.succ_lt_succ hj)
      simpa using this
    show (if pat.isPrefixOf ((c :: cs) ++ b) then 1 else 0) + countOcc pat (cs ++ b) =
      ((if pat.isPrefixOf (c :: cs) then 1 else 0) + countOcc pat cs) + countOcc pat b
    rw [show ((c :: cs) ++ b : Str) = c :: (cs ++ b) from rfl] at h0 ⊢
    rw [h0, ih hrest]
    omega

/-- When a block `M` at least as long as `pat` neither begins with a
proper tail of `pat` nor ends with a short head of `pat`, occurrences of
`pat` cannot straddle the borders of `M`, and the occurrence count of any
text with `M` spliced in is the sum over the three segments. -/
theorem countOcc_block {pat M : Str} (hp : pat ≠ [])
    (hlen : pat.length ≤ M.length)
    (h1 : ∀ k, k < pat.length → 0 < k → (pat.drop k).isPrefixOf M = false)
    (h2 : ∀ j, j < M.length → M.length < j + pat.length →
      (M.drop j).isPrefixOf pat = false)
    (a b : Str) :
    countOcc pat (a ++ (M ++ b)) =
      countOcc pat a + countOcc pat M + countOcc pat b := by
  have agreeM : ∀ j, j < M.length →
      pat.isPrefixOf (M.drop j ++ b) = pat.isPrefixOf (M.drop j) := by
    intro j hj
    rcases le_or_lt pat.length (M.drop j).length with hle | hlt
    · exact isPrefixOf_append_of_le b hle
    · have hrhs : pat.isPrefixOf (M.drop j) = false := by
        by_contra hcon
        simp only [Bool.not_eq_false] at hcon
        exact absurd (isPrefixOf_length_le hcon) (by omega)
      rw [hrhs]
      by_contra hcon
      simp only [Bool.not_eq_false] at hcon
      have := (isPrefixOf_split b hlt hcon).1
      have hfalse := h2 j hj (by simp only [List.length_drop] at hlt; omega)
      rw [hfalse] at this
      exact Bool.false_ne_true this
  have agreeA : ∀ i, i < a.length →
      pat.isPrefixOf (a.drop i ++ (M ++ b)) = pat.isPrefixOf (a.drop i) := by
    intro i hi
    rcases le_or_lt pat.length (a.drop i).length with hle | hlt
    · exact isPrefixOf_append_of_le _ hle
    · have hrhs : pat.isPrefixOf (a.drop i) = false := by
        by_contra hcon
        simp only [Bool.not_eq_false] at hcon
        exact absurd (isPrefixOf_length_le hcon) (by omega)
      rw [hrhs]
      by_contra hcon
      simp only [Bool.not_eq_false] at hcon
      have hsplit := isPrefixOf_split (M ++ b) hlt hcon
      have hk1 : 0 < (a.drop i).length := by
        simp only [List.length_drop]
        omega
      have hk2 : (a.drop i).length < pat.length := hlt
      have hshort : (pat.drop (a.drop i).length).length ≤ M.length := by
        simp only [List.length_drop]
        omega
      have := hsplit.2
      rw [isPrefixOf_append_of_le b hshort] at this
      have hfalse := h1 (a.drop i).length hk2 hk1
      rw [hfalse] at this
      exact Bool.false_ne_true this
  rw [countOcc_append_of_agree hp agreeA, countOcc_append_of_agree hp agreeM]
  omega

theorem pySplit_middle {pat a b : Str} (hp : pat ≠ [])
    (hA : passable pat a = true) (hB : passable pat b = true) :
    pySplit pat (a ++ (pat ++ b)) = [a, b] := by
  rw [pySplit]
  rw [show (a ++ (pat ++ b)).length + 1 =
    a.length + ((pat.length + b.length) + 1) from by
      simp [List.length_append]; omega]
  rw [pySplitGo_passable hA, pySplitGo_match,
    pySplitGo_all_passable hp hB]
  simp [prependFirst]

/-! ### Canonical concrete inputs shared by several claims -/

/-- A concrete template containing both markers exactly once. -/
def canonTemplate : Str :=
  str "<html><head><title>Old</title><meta name=\"title\" content=\"OldT\"><meta name=\"description\" content=\"OldD\"></head><body><section class=\"about\"><div class=\"about-content\">OLDBODY</ul>\n            </div>\n        </div>\n    </section><footer>F</footer></body></html>"

/-- A concrete well-formed response object with all required fields. -/
def canonFields : List (Str × Json) :=
  [(str "title", .str (str "Qq1")), (str "description", .str (str "Dd2")),
   (str "content_html", .str (str "Zz3")), (str "category", .str (str "Cat4")),
   (str "excerpt", .str (str "Ex5")), (str "slug", .str (str "slug1"))]

/-- Canonical run input: API key present, canonical template and response,
with the given blogs.json parse result and sitemap text. -/
def canonInput (bj : Except Unit Json) (sm : Str) : RunInput :=
  { hasApiKey := true, template := canonTemplate,
    response := .ok (.obj canonFields), blogsJson := bj, sitemap := sm,
    today := str "2026-10-12" }

/-! ### Claim C1 -/

/-- C1: the index update inserts the new entry at index 0, the length
grows by exactly one, every pre-existing entry is preserved unmodified
one position later, and a missing or unparseable index file is treated as
an empty starting list rather than an error. -/
theorem c1_index_insert_front :
    (∀ e : Json, updateIndex (.error ()) e = .ok (.arr [e])) ∧
    (∀ (xs : List Json) (e : Json),
      updateIndex (.ok (.arr xs)) e = .ok (.arr (e :: xs)) ∧
      (e :: xs).length = xs.length + 1 ∧
      (e :: xs)[0]? = some e ∧
      ∀ i : Nat, (e :: xs)[i + 1]? = xs[i]?) := by
  refine ⟨fun e => rfl, fun xs e => ⟨rfl, by simp, by simp, fun i => by simp⟩⟩

/-! ### Claim C2 -/

set_option maxRecDepth 1000000 in
/-- C2 counterexample: a template that contains the related-articles end
marker but not the content-area start marker.  The claim says extraction
must fail for it; in fact `header_parts[0]` exists whether or not the
start marker occurs, so extraction succeeds. -/
theorem c2_counterexample :
    containsSub startMarker (str "A" ++ endMarker ++ str "B") = false ∧
    extractLayout (str "A" ++ endMarker ++ str "B") =
      .ok (str "A" ++ endMarker ++ str "B" ++ reopenFrag,
        relatedFrag ++ str "B") := by
  constructor
  · decide
  · decide

/-- C2 amended: extraction fails (with the uncaught `IndexError` of
`footer_parts[1]`, the code's realisation of `LayoutExtractionError`)
exactly when the END marker does not occur in the template, and in that
case the run performs no file writes; a missing start marker alone does
not cause a failure (see `c2_counterexample`). -/
theorem c2_extraction_failure (inp : RunInput)
    (hkey : inp.hasApiKey = true)
    (hmiss : containsSub endMarker inp.template = false) :
    generateBlog inp = ([], some .indexError) := by
  have hext : extractLayout inp.template = .error .indexError := by
    rw [extractLayout]
    rw [show pySplit endMarker inp.template = [inp.template] from
      pySplitGo_of_not_containsSub hmiss _]
    rfl
  rw [generateBlog, hkey]
  simp [hext]

/-- C2 witness: a concrete markerless template. -/
theorem c2_extraction_failure_witness :
    generateBlog
      { hasApiKey := true, template := str "nothing here",
        response := .error (), blogsJson := .error (),
        sitemap := [], today := [] } = ([], some .indexError) :=
  c2_extraction_failure _ rfl (by decide)

/-! ### Claim C7 -/

set_option maxRecDepth 1000000 in
/-- C7 counterexample: when the end marker occurs twice, the footer is
built from `footer_parts[1]`, the text strictly BETWEEN the first and
second occurrences, not from everything after the first occurrence as the
claim states. -/
theorem c7_counterexample :
    extractLayout (str "A" ++ endMarker ++ str "B" ++ endMarker ++ str "C") =
      .ok (str "A" ++ endMarker ++ str "B" ++ endMarker ++ str "C" ++ reopenFrag,
        relatedFrag ++ str "B") ∧
    relatedFrag ++ str "B" ≠
      relatedFrag ++ (str "B" ++ endMarker ++ str "C") := by
  constructor
  · decide
  · decide

/-- C7 amended: with both markers occurring twice (pieces free of `<`,
the first character of both markers), the header is everything before the
FIRST start-marker occurrence plus the re-opened wrapper fragment - as
the claim states - but the footer is the fixed related-articles fragment
concatenated with the text strictly between the first and second
end-marker occurrences (`footer_parts[1]` of Python `split`), which
equals "everything after the first occurrence" only when the end marker
occurs exactly once. -/
theorem c7_first_occurrence (a b c d e : Str)
    (ha : a.all (fun ch => ch ≠ '<') = true)
    (hb : b.all (fun ch => ch ≠ '<') = true)
    (hc : c.all (fun ch => ch ≠ '<') = true)
    (hd : d.all (fun ch => ch ≠ '<') = true) :
    extractLayout
        (a ++ startMarker ++ b ++ startMarker ++ c ++ endMarker ++ d ++
          endMarker ++ e) =
      .ok (a ++ reopenFrag, relatedFrag ++ d) := by
  have hEMhead : endMarker.head? = some '<' := by decide
  have hSMhead : startMarker.head? = some '<' := by decide
  have hpassSM : passable endMarker startMarker = true := by decide
  have hpassX : passable endMarker
      (a ++ startMarker ++ b ++ startMarker ++ c) = true :=
    passable_append (passable_append (passable_append
      (passable_append (passable_of_head hEMhead ha) hpassSM)
      (passable_of_head hEMhead hb)) hpassSM)
      (passable_of_head hEMhead hc)
  have hpassD : passable endMarker d = true := passable_of_head hEMhead hd
  have hpassA : passable startMarker a = true := passable_of_head hSMhead ha
  -- the end-marker split is [prefix, d, ...]
  have hsplitEM : pySplit endMarker
      (a ++ startMarker ++ b ++ startMarker ++ c ++ endMarker ++ d ++
        endMarker ++ e) =
      (a ++ startMarker ++ b ++ startMarker ++ c) :: d ::
        pySplitGo endMarker
          (endMarker.length + (endMarker.length + e.length) - 1) e := by
    rw [pySplit]
    rw [show (a ++ startMarker ++ b ++ startMarker ++ c ++ endMarker ++ d ++
        endMarker ++ e).length + 1 =
      (a ++ startMarker ++ b ++ startMarker ++ c).length +
        ((endMarker.length + (d.length + (endMarker.length + e.length))) + 1)
      from by simp [List.length_append]; omega]
    conv_lhs =>
      rw [show (a ++ startMarker ++ b ++ startMarker ++ c ++ endMarker ++ d ++
          endMarker ++ e : Str) =
        (a ++ startMarker ++ b ++ startMarker ++ c) ++
          (endMarker ++ (d ++ (endMarker ++ e)))
        from by simp [List.append_assoc]]
    rw [pySplitGo_passable hpassX _ _, pySplitGo_match]
    rw [show endMarker.length + (d.length + (endMarker.length + e.length)) =
      d.length + (endMarker.length + (endMarker.length + e.length)) from by
        omega]
    rw [pySplitGo_passable hpassD _ _]
    rw [show endMarker.length + (endMarker.length + e.length) =
      (endMarker.length + (endMarker.length + e.length) - 1) + 1 from by
        have h54 : endMarker.length = 54 := by decide
        omega]
    rw [pySplitGo_match]
    simp [prependFirst]
  -- the start-marker split begins with a
  have hsplitSM : (pySplit startMarker
      (a ++ startMarker ++ b ++ startMarker ++ c ++ endMarker ++ d ++
        endMarker ++ e)).headD [] = a := by
    rw [pySplit]
    rw [show (a ++ startMarker ++ b ++ startMarker ++ c ++ endMarker ++ d ++
        endMarker ++ e).length + 1 =
      a.length + ((b ++ startMarker ++ c ++ endMarker ++ d ++ endMarker ++
        e).length + startMarker.length + 1)
      from by simp [List.length_append]; omega]
    conv_lhs =>
      rw [show (a ++ startMarker ++ b ++ startMarker ++ c ++ endMarker ++ d ++
          endMarker ++ e : Str) =
        a ++ (startMarker ++
          (b ++ startMarker ++ c ++ endMarker ++ d ++ endMarker ++ e))
        from by simp [List.append_assoc]]
    rw [pySplitGo_passable hpassA _ _]
    rw [show (b ++ startMarker ++ c ++ endMarker ++ d ++ endMarker ++
        e).length + startMarker.length + 1 =
      ((b ++ startMarker ++ c ++ endMarker ++ d ++ endMarker ++ e).length +
        startMarker.length) + 1 from rfl]
    rw [pySplitGo_match]
    simp [prependFirst]
  rw [extractLayout, hsplitEM]
  simp only [List.getElem?_cons_succ, List.getElem?_cons_zero]
  rw [hsplitSM]

/-- C7 witness: concrete `<`-free pieces. -/
theorem c7_first_occurrence_witness :
    extractLayout
        (str "x" ++ startMarker ++ str "y" ++ startMarker ++ str "z" ++
          endMarker ++ str "w" ++ endMarker ++ str "v") =
      .ok (str "x" ++ reopenFrag, relatedFrag ++ str "w") :=
  c7_first_occurrence (str "x") (str "y") (str "z") (str "w") (str "v")
    (by decide) (by decide) (by decide) (by decide)

/-! ### Claim C3 -/

set_option maxRecDepth 1000000 in
/-- C3 counterexample: `str.replace` replaces EVERY occurrence of
`</urlset>`, so a sitemap text containing the closing tag twice gains two
`<url>` blocks, not exactly one. -/
theorem c3_counterexample :
    (updateSitemap (str "</urlset></urlset>") (str "s.html") (str "d")).map
        (countOcc (str "<url>")) = some 2 ∧
    countOcc (str "<url>") (str "</urlset></urlset>") = 0 := by
  constructor
  · decide
  · decide

set_option maxRecDepth 1000000 in
/-- C3 amended: for sitemap text in which `</urlset>` occurs exactly once
(decomposed as `a ++ "</urlset>" ++ b` with no occurrence starting inside
`a` or `b`), the update inserts the new `<url>` block immediately before
the closing tag with the rest byte-identical, and the result contains
exactly one more `<url>` block than before; when the tag occurs more than
once a copy of the block is inserted before every occurrence
(`c3_counterexample`); when the tag is absent the step is skipped, and
the run then still completes its other writes without failing. -/
theorem c3_sitemap_insert (a b : Str)
    (hA : passable (str "</urlset>") a = true)
    (hB : passable (str "</urlset>") b = true) :
    updateSitemap (a ++ str "</urlset>" ++ b) (str "s5.html")
        (str "2026-10-12") =
      some (a ++ urlBlock (str "s5.html") (str "2026-10-12") ++ str "\n" ++
        str "</urlset>" ++ b) ∧
    countOcc (str "<url>")
        (a ++ urlBlock (str "s5.html") (str "2026-10-12") ++ str "\n" ++
          str "</urlset>" ++ b) =
      countOcc (str "<url>") (a ++ str "</urlset>" ++ b) + 1 ∧
    (∀ (s nf td : Str), containsSub (str "</urlset>") s = false →
      updateSitemap s nf td = none) ∧
    (generateBlog (canonInput (.ok (.arr [])) (str "<urlset>"))).1.map
        (·.path) = [str "blog/slug1.html", str "blogs.json"] ∧
    (generateBlog (canonInput (.ok (.arr [])) (str "<urlset>"))).2 = none := by
  have hcont : containsSub (str "</urlset>") (a ++ str "</urlset>" ++ b) =
      true := containsSub_middle _ a b
  refine ⟨?_, ?_, ?_, by decide, by decide⟩
  · rw [updateSitemap, if_pos hcont, pyReplaceAll]
    rw [show (a ++ str "</urlset>" ++ b : Str) =
      a ++ (str "</urlset>" ++ b) from by simp [List.append_assoc]]
    rw [pySplit_middle (by decide) hA hB]
    simp only [joinWith]
    simp [List.append_assoc,
      show (str "\n</urlset>" : Str) = str "\n" ++ str "</urlset>" from by
        decide]
  · have hb1 := @countOcc_block (str "<url>")
      (urlBlock (str "s5.html") (str "2026-10-12") ++ str "\n" ++
        str "</urlset>")
      (by decide) (by decide) (by decide) (by decide) a b
    have hb2 := @countOcc_block (str "<url>") (str "</urlset>")
      (by decide) (by decide) (by decide) (by decide) a b
    rw [show (a ++ urlBlock (str "s5.html") (str "2026-10-12") ++ str "\n" ++
        str "</urlset>" ++ b : Str) =
      a ++ ((urlBlock (str "s5.html") (str "2026-10-12") ++ str "\n" ++
        str "</urlset>") ++ b) from by simp [List.append_assoc]]
    rw [show (a ++ str "</urlset>" ++ b : Str) =
      a ++ (str "</urlset>" ++ b) from by simp [List.append_assoc]]
    rw [hb1, hb2]
    have hc1 : countOcc (str "<url>")
        (urlBlock (str "s5.html") (str "2026-10-12") ++ str "\n" ++
          str "</urlset>") = 1 := by decide
    have hc2 : countOcc (str "<url>") (str "</urlset>") = 0 := by decide
    rw [hc1, hc2]
    omega
  · intro s nf td h
    rw [updateSitemap, if_neg]
    simp [h]

/-- C3 witness: a concrete one-occurrence sitemap. -/
theorem c3_sitemap_insert_witness :
    updateSitemap (str "<urlset>x" ++ str "</urlset>" ++ str "y")
        (str "s5.html") (str "2026-10-12") =
      some (str "<urlset>x" ++ urlBlock (str "s5.html") (str "2026-10-12") ++
        str "\n" ++ str "</urlset>" ++ str "y") :=
  (c3_sitemap_insert (str "<urlset>x") (str "y") (by decide) (by decide)).1

/-! ### Claim C4 -/

theorem countRunsGo_inRun {p : Char → Bool} :
    ∀ {w : Str}, (∀ c ∈ w, p c = true) →
    ∀ r, countRunsGo p true (w ++ r) = countRunsGo p true r := by
  intro w
  induction w with
  | nil => intro _ r; rfl
  | cons c cs ih =>
    intro hall r
    have hc : p c = true := hall c (by simp)
    simp only [List.cons_append, countRunsGo, hc, if_true, List.append_eq]
    rw [ih (fun d hd => hall d (by simp [hd]))]
    simp

theorem countRunsGo_token {p : Char → Bool} {w : Str} (hne : w ≠ [])
    (hall : ∀ c ∈ w, p c = true) (r : Str) :
    countRunsGo p false (w ++ r) = 1 + countRunsGo p true r := by
  cases w with
  | nil => exact absurd rfl hne
  | cons c cs =>
    have hc : p c = true := hall c (by simp)
    simp only [List.cons_append, countRunsGo, hc, if_true, List.append_eq,
      Bool.false_eq_true, if_false]
    rw [countRunsGo_inRun (fun d hd => hall d (by simp [hd]))]

theorem countRunsGo_sep {p : Char → Bool} {c : Char} (hc : p c = false)
    (st : Bool) (r : Str) :
    countRunsGo p st (c :: r) = countRunsGo p false r := by
  simp [countRunsGo, hc]

theorem countRuns_joined_tokens {p : Char → Bool} (hsep : p ' ' = false) :
    ∀ (toks : List Str), toks ≠ [] →
    (∀ w ∈ toks, w ≠ [] ∧ ∀ c ∈ w, p c = true) →
    countRunsGo p false (joinWith (str " ") toks) = toks.length := by
  intro toks
  induction toks with
  | nil => intro h _; exact absurd rfl h
  | cons w ws ih =>
    intro _ hall
    have hw := hall w (by simp)
    cases ws with
    | nil =>
      show countRunsGo p false w = 1
      rw [show w = w ++ [] from by simp, countRunsGo_token hw.1 hw.2]
      rfl
    | cons v vs =>
      have hjoin : joinWith (str " ") (w :: v :: vs) =
          w ++ (' ' :: joinWith (str " ") (v :: vs)) := by
        show w ++ str " " ++ joinWith (str " ") (v :: vs) = _
        simp [List.append_assoc, str]
      rw [hjoin, countRunsGo_token hw.1 hw.2, countRunsGo_sep hsep]
      rw [ih (by simp) (fun u hu => hall u (by simp [hu]))]
      simp
      omega

/-- Word characters are not whitespace. -/
theorem wordChar_not_whitespace {c : Char} (h : wordChar c = true) :
    (!c.isWhitespace) = true := by
  by_contra hcon
  have hw : c.isWhitespace = true := by
    cases hiw : c.isWhitespace
    · exact absurd (by simp [hiw]) hcon
    · rfl
  have hx : c = ' ' ∨ c = '\t' ∨ c = '\x0d' ∨ c = '\n' := by
    simp only [Char.isWhitespace, Bool.or_eq_true, decide_eq_true_eq] at hw
    tauto
  rcases hx with h1 | h1 | h1 | h1 <;> subst h1 <;> simp [wordChar] at h

set_option maxRecDepth 1000000 in
/-- C4 counterexample: the code counts `\w+` matches, not
whitespace-delimited tokens.  300 copies of "a-" form ONE
whitespace-delimited token (the claim's formula gives reading time 1) but
600 word-character runs, so the displayed reading time is 2. -/
theorem c4_counterexample :
    readTime ((List.replicate 300 (str "a-")).flatten) = 2 ∧
    max 1 (roundDiv200 (specTokenCount ((List.replicate 300 (str "a-")).flatten)))
      = 1 := by
  constructor
  · decide
  · decide

/-- C4 amended: the displayed reading time is
`max(1, round(word_count / 200))` where word_count counts maximal runs of
word characters (`re.findall(r'\w+')`), not whitespace-delimited tokens;
the two coincide - and the claim's formula holds - whenever every
whitespace-delimited token is a pure word-character run, so 400 such
tokens yield 2 and 50 yield 1. -/
theorem c4_reading_time (toks : List Str) (hne : toks ≠ [])
    (htok : ∀ w ∈ toks, w ≠ [] ∧ ∀ c ∈ w, wordChar c = true) :
    readTime (joinWith (str " ") toks) = max 1 (roundDiv200 toks.length) ∧
    specTokenCount (joinWith (str " ") toks) = toks.length := by
  constructor
  · rw [readTime, wordCount,
      countRuns_joined_tokens (by decide) toks hne htok]
  · rw [specTokenCount]
    refine countRuns_joined_tokens (by decide) toks hne ?_
    intro w hw
    exact ⟨(htok w hw).1, fun c hc => wordChar_not_whitespace ((htok w hw).2 c hc)⟩

set_option maxRecDepth 1000000 in
/-- C4 witness: 400 plain word tokens display 2 minutes, 50 display 1. -/
theorem c4_reading_time_witness :
    readTime (joinWith (str " ") (List.replicate 400 (str "w"))) = 2 ∧
    readTime (joinWith (str " ") (List.replicate 50 (str "w"))) = 1 := by
  have hne400 : List.replicate 400 (str "w") ≠ [] := by
    intro h
    have := congrArg List.length h
    simp at this
  have hne50 : List.replicate 50 (str "w") ≠ [] := by
    intro h
    have := congrArg List.length h
    simp at this
  have h400 := (c4_reading_time (List.replicate 400 (str "w")) hne400
    (by
      intro w hw
      rw [List.eq_of_mem_replicate hw]
      exact ⟨by decide, by decide⟩)).1
  have h50 := (c4_reading_time (List.replicate 50 (str "w")) hne50
    (by
      intro w hw
      rw [List.eq_of_mem_replicate hw]
      exact ⟨by decide, by decide⟩)).1
  rw [h400, h50]
  simp only [List.length_replicate]
  constructor
  · decide
  · decide

/-! ### Decomposed substitution lemmas -/

theorem pySub_one_occurrence {pre suf : Str} (rep x m z : Str)
    (hpre : pre ≠ []) (hsuf : suf ≠ [])
    (hx : passable pre x = true) (hz : passable pre z = true)
    (hm : passable suf m = true) (hmn : m.all (fun ch => ch ≠ '\n') = true) :
    pySub pre suf rep (x ++ (pre ++ (m ++ (suf ++ z)))) =
      x ++ (rep ++ z) := by
  have hpl : 1 ≤ pre.length := List.length_pos.mpr hpre
  rw [pySub]
  rw [show (x ++ (pre ++ (m ++ (suf ++ z)))).length =
    x.length + ((pre.length + (m.length + (suf.length + z.length)) - 1) + 1)
    from by simp [List.length_append]; omega]
  rw [subAllGo_passable hx, subAllGo_match hsuf hm hmn,
    subAllGo_all_passable hpre hz]

theorem pySub_two_occurrences {pre suf : Str} (rep x m1 y m2 z : Str)
    (hpre : pre ≠ []) (hsuf : suf ≠ [])
    (hx : passable pre x = true) (hy : passable pre y = true)
    (hz : passable pre z = true)
    (hm1 : passable suf m1 = true) (hm1n : m1.all (fun ch => ch ≠ '\n') = true)
    (hm2 : passable suf m2 = true) (hm2n : m2.all (fun ch => ch ≠ '\n') = true) :
    pySub pre suf rep
        (x ++ (pre ++ (m1 ++ (suf ++ (y ++ (pre ++ (m2 ++ (suf ++ z)))))))) =
      x ++ (rep ++ (y ++ (rep ++ z))) := by
  have hpl : 1 ≤ pre.length := List.length_pos.mpr hpre
  have hsl : 1 ≤ suf.length := List.length_pos.mpr hsuf
  rw [pySub]
  rw [show (x ++ (pre ++ (m1 ++ (suf ++ (y ++ (pre ++ (m2 ++ (suf ++ z)))))))).length =
    x.length + ((pre.length + (m1.length + (suf.length + (y.length +
      (pre.length + (m2.length + (suf.length + z.length)))))) - 1) + 1)
    from by simp [List.length_append]; omega]
  rw [subAllGo_passable hx, subAllGo_match hsuf hm1 hm1n]
  rw [show pre.length + (m1.length + (suf.length + (y.length +
      (pre.length + (m2.length + (suf.length + z.length)))))) - 1 =
    y.length + ((pre.length + (m1.length + (suf.length +
      (pre.length + (m2.length + (suf.length + z.length)))))) - 1)
    from by omega]
  rw [subAllGo_passable hy]
  rw [show pre.length + (m1.length + (suf.length +
      (pre.length + (m2.length + (suf.length + z.length))))) - 1 =
    ((pre.length + (m1.length + (suf.length + (pre.length +
      (m2.length + (suf.length + z.length)))))) - 2) + 1
    from by omega]
  rw [subAllGo_match hsuf hm2 hm2n, subAllGo_all_passable hpre hz]

/-! ### Canonical layout and fields for the page-assembly claims -/

/-- A header containing each of the three placeholder patterns exactly
once, then the rest of the head markup. -/
def c5Header : Str :=
  str "<title>Old</title><meta name=\"title\" content=\"OldT\"><meta name=\"description\" content=\"OldD\"><body>"

/-- The footer used with `c5Header`. -/
def c5Footer : Str := str "<fend>"

/-- A response object with the given title, description, body markup and
social texts, and fixed category, excerpt and slug. -/
def mkFields (t d c sp sc : Str) : List (Str × Json) :=
  [(str "title", .str t), (str "description", .str d),
   (str "content_html", .str c), (str "category", .str (str "Cat")),
   (str "excerpt", .str (str "Ex")), (str "slug", .str (str "slug1")),
   (str "social_poster_text", .str sp), (str "social_caption", .str sc)]

/-- Remainder of `c5Header` after the title element. -/
def c5Rest : Str :=
  str "<meta name=\"title\" content=\"OldT\"><meta name=\"description\" content=\"OldD\"><body>"

/-- Remainder of `c5Header` after the meta-title element. -/
def c5Rest2 : Str :=
  str "<meta name=\"description\" content=\"OldD\"><body>"

/-! ### Claim C5 -/

set_option maxRecDepth 1000000 in
/-- C5 counterexample: with every placeholder present once and a title
occurring nowhere else, the assembled page contains the title THREE
times (title element, meta-title attribute, heading), not twice as the
claim states; the body markup occurs once. -/
theorem c5_counterexample :
    (assembleRest c5Header c5Footer
        (mkFields (str "Qq1") (str "Dd2") (str "Zz3") [] [])).map
      (countOcc (str "Qq1")) = .ok 3 ∧
    (assembleRest c5Header c5Footer
        (mkFields (str "Qq1") (str "Dd2") (str "Zz3") [] [])).map
      (countOcc (str "Zz3")) = .ok 1 := by
  constructor
  · decide
  · decide

set_option maxRecDepth 1000000 in
/-- C5 amended: for a layout whose header contains each placeholder once,
the assembled page is the header with the three placeholder elements
rewritten - so the title is inserted at exactly THREE positions (title
element, meta-title attribute, and heading), the description at one, and
the body markup `content_html` at exactly one position, verbatim. -/
theorem c5_title_three_times (t d c sp sc : Str)
    (htb : t.all (fun ch => ch ≠ '\\') = true)
    (hdb : d.all (fun ch => ch ≠ '\\') = true)
    (htl : t.all (fun ch => ch ≠ '<') = true) :
    assembleRest c5Header c5Footer (mkFields t d c sp sc) =
      .ok (str "<title>" ++ t ++ str " | StampCircle</title>"
        ++ str "<meta name=\"title\" content=\"" ++ t ++ str "\">"
        ++ str "<meta name=\"description\" content=\"" ++ d ++ str "\">"
        ++ str "<body>"
        ++ str "\n            <h1 class=\"section-title\">" ++ t ++ str "</h1>"
        ++ str "\n            <p style=\"opacity: 0.9; margin-bottom: 3rem; font-size: 1.1rem;\">⏱️ "
        ++ natStr (readTime c) ++ str " min read</p>"
        ++ str "\n            <div class=\"article-body\">\n" ++ c ++ str "\n"
        ++ socialFrag sp sc
        ++ c5Footer) := by
  -- replacement templates have no backslash, so expansion is the identity
  have hBS1 : (str "<title>" ++ t ++ str " | StampCircle</title>").all
      (fun ch => ch ≠ '\\') = true := by
    simp only [List.all_append, Bool.and_eq_true]
    exact ⟨⟨by decide, htb⟩, by decide⟩
  have hBS2 : (str "<meta name=\"title\" content=\"" ++ t ++ str "\">").all
      (fun ch => ch ≠ '\\') = true := by
    simp only [List.all_append, Bool.and_eq_true]
    exact ⟨⟨by decide, htb⟩, by decide⟩
  have hBS3 : (str "<meta name=\"description\" content=\"" ++ d ++ str "\">").all
      (fun ch => ch ≠ '\\') = true := by
    simp only [List.all_append, Bool.and_eq_true]
    exact ⟨⟨by decide, hdb⟩, by decide⟩
  -- first substitution: the title element
  have hp1 : pySub titlePre titleSuf
      (str "<title>" ++ t ++ str " | StampCircle</title>") c5Header =
      str "<title>" ++ t ++ str " | StampCircle</title>" ++ c5Rest := by
    have hstep := @pySub_one_occurrence titlePre titleSuf
      (str "<title>" ++ t ++ str " | StampCircle</title>")
      [] (str "Old") c5Rest
      (by decide) (by decide) rfl (by decide) (by decide) (by decide)
    rw [show (([] : Str) ++ (titlePre ++ (str "Old" ++ (titleSuf ++ c5Rest)))) =
      c5Header from by decide] at hstep
    rw [hstep]
    simp [List.append_assoc]
  -- second substitution: the meta-title attribute
  have hpassT2 : passable metaTitlePre
      (str "<title>" ++ t ++ str " | StampCircle</title>") = true := by
    exact passable_append (passable_append (by decide)
      (passable_of_head (by decide) htl)) (by decide)
  have hp2 : pySub metaTitlePre attrSuf
      (str "<meta name=\"title\" content=\"" ++ t ++ str "\">")
      (str "<title>" ++ t ++ str " | StampCircle</title>" ++ c5Rest) =
      (str "<title>" ++ t ++ str " | StampCircle</title>") ++
        ((str "<meta name=\"title\" content=\"" ++ t ++ str "\">") ++ c5Rest2) := by
    have hstep := @pySub_one_occurrence metaTitlePre attrSuf
      (str "<meta name=\"title\" content=\"" ++ t ++ str "\">")
      (str "<title>" ++ t ++ str " | StampCircle</title>")
      (str "OldT") c5Rest2
      (by decide) (by decide) hpassT2 (by decide) (by decide) (by decide)
    rw [show (metaTitlePre ++ (str "OldT" ++ (attrSuf ++ c5Rest2))) = c5Rest
      from by decide] at hstep
    rw [show (str "<title>" ++ t ++ str " | StampCircle</title>" ++ c5Rest : Str) =
      (str "<title>" ++ t ++ str " | StampCircle</title>") ++ c5Rest from rfl]
    rw [hstep]
  -- third substitution: the meta-description attribute
  have hpassT3 : passable metaDescPre
      ((str "<title>" ++ t ++ str " | StampCircle</title>") ++
        (str "<meta name=\"title\" content=\"" ++ t ++ str "\">")) = true := by
    refine passable_append (passable_append (passable_append (by decide)
      (passable_of_head (by decide) htl)) (by decide)) ?_
    exact passable_append (passable_append (by decide)
      (passable_of_head (by decide) htl)) (by decide)
  have hp3 : pySub metaDescPre attrSuf
      (str "<meta name=\"description\" content=\"" ++ d ++ str "\">")
      ((str "<title>" ++ t ++ str " | StampCircle</title>") ++
        ((str "<meta name=\"title\" content=\"" ++ t ++ str "\">") ++ c5Rest2)) =
      ((str "<title>" ++ t ++ str " | StampCircle</title>") ++
        (str "<meta name=\"title\" content=\"" ++ t ++ str "\">")) ++
        ((str "<meta name=\"description\" content=\"" ++ d ++ str "\">") ++
          str "<body>") := by
    have hstep := @pySub_one_occurrence metaDescPre attrSuf
      (str "<meta name=\"description\" content=\"" ++ d ++ str "\">")
      ((str "<title>" ++ t ++ str " | StampCircle</title>") ++
        (str "<meta name=\"title\" content=\"" ++ t ++ str "\">"))
      (str "OldD") (str "<body>")
      (by decide) (by decide) hpassT3 (by decide) (by decide) (by decide)
    rw [show (metaDescPre ++ (str "OldD" ++ (attrSuf ++ str "<body>"))) =
      c5Rest2 from by decide] at hstep
    simp only [List.append_assoc] at hstep
    simp only [List.append_assoc]
    exact hstep
  -- assemble
  have hr1 : reSub titlePre titleSuf
      (str "<title>" ++ t ++ str " | StampCircle</title>") c5Header =
      .ok (str "<title>" ++ t ++ str " | StampCircle</title>" ++ c5Rest) := by
    rw [reSub, expandRepl_no_backslash hBS1]
    exact congrArg Except.ok hp1
  have hr2 : reSub metaTitlePre attrSuf
      (str "<meta name=\"title\" content=\"" ++ t ++ str "\">")
      (str "<title>" ++ t ++ str " | StampCircle</title>" ++ c5Rest) =
      .ok ((str "<title>" ++ t ++ str " | StampCircle</title>") ++
        ((str "<meta name=\"title\" content=\"" ++ t ++ str "\">") ++ c5Rest2)) := by
    rw [reSub, expandRepl_no_backslash hBS2]
    exact congrArg Except.ok hp2
  have hr3 : reSub metaDescPre attrSuf
      (str "<meta name=\"description\" content=\"" ++ d ++ str "\">")
      ((str "<title>" ++ t ++ str " | StampCircle</title>") ++
        ((str "<meta name=\"title\" content=\"" ++ t ++ str "\">") ++ c5Rest2)) =
      .ok (((str "<title>" ++ t ++ str " | StampCircle</title>") ++
        (str "<meta name=\"title\" content=\"" ++ t ++ str "\">")) ++
        ((str "<meta name=\"description\" content=\"" ++ d ++ str "\">") ++
          str "<body>")) := by
    rw [reSub, expandRepl_no_backslash hBS3]
    exact congrArg Except.ok hp3
  have hget1 : getF (mkFields t d c sp sc) (str "content_html") =
    .ok (.str c) := rfl
  have hget2 : getF (mkFields t d c sp sc) (str "title") = .ok (.str t) := rfl
  have hget3 : getF (mkFields t d c sp sc) (str "description") =
    .ok (.str d) := rfl
  have hgd1 : getD (mkFields t d c sp sc) (str "social_poster_text") = sp := rfl
  have hgd2 : getD (mkFields t d c sp sc) (str "social_caption") = sc := rfl
  simp only [assembleRest, Bind.bind, Except.bind, Pure.pure, Except.pure,
    hget1, hget2, hget3, hgd1, hgd2, fmt, asPyStr, hr1, hr2, hr3]
  simp [List.append_assoc]

/-- C5 witness: a concrete instantiation of the amended statement. -/
theorem c5_title_three_times_witness :
    assembleRest c5Header c5Footer
        (mkFields (str "Qq1") (str "Dd2") (str "Zz3") [] []) =
      .ok (str "<title>" ++ str "Qq1" ++ str " | StampCircle</title>"
        ++ str "<meta name=\"title\" content=\"" ++ str "Qq1" ++ str "\">"
        ++ str "<meta name=\"description\" content=\"" ++ str "Dd2" ++ str "\">"
        ++ str "<body>"
        ++ str "\n            <h1 class=\"section-title\">" ++ str "Qq1" ++ str "</h1>"
        ++ str "\n            <p style=\"opacity: 0.9; margin-bottom: 3rem; font-size: 1.1rem;\">⏱️ "
        ++ natStr (readTime (str "Zz3")) ++ str " min read</p>"
        ++ str "\n            <div class=\"article-body\">\n" ++ str "Zz3" ++ str "\n"
        ++ socialFrag [] []
        ++ c5Footer) :=
  c5_title_three_times (str "Qq1") (str "Dd2") (str "Zz3") [] []
    (by decide) (by decide) (by decide)

/-! ### Claim C9 -/

set_option maxRecDepth 1000000 in
/-- C9: the generated title is used as an `re.sub` replacement template.
A title containing the two characters backslash-n yields a title element
with a real newline rather than the literal text, and a title containing
the invalid group reference backslash-1 makes page assembly raise
`re.error` instead of producing a page. -/
theorem c9_replacement_template :
    (assembleRest c5Header c5Footer
        (mkFields (str "A\\np") (str "Dd2") (str "Zz3") [] [])).map
      (fun p => (countOcc (str "<title>A\\np | StampCircle</title>") p,
        countOcc (str "<title>A\np | StampCircle</title>") p)) =
      .ok (0, 1) ∧
    assembleRest c5Header c5Footer
        (mkFields (str "Sale\\1") (str "Dd2") (str "Zz3") [] []) =
      .error .reError := by
  constructor
  · decide
  · decide

/-! ### Claim C6 -/

set_option maxRecDepth 1000000 in
/-- C6 counterexample: a header containing the title-element pattern
twice has BOTH occurrences rewritten by the substitution of line 85, not
only the first as the claim states. -/
theorem c6_counterexample :
    (assembleRest
        (str "<title>One</title><meta name=\"title\" content=\"OldT\"><meta name=\"description\" content=\"OldD\"><title>Two</title>")
        c5Footer (mkFields (str "Qq1") (str "Dd2") (str "Zz3") [] [])).map
      (countOcc (str "<title>Qq1 | StampCircle</title>")) = .ok 2 := by
  decide

/-- C6 amended: each of the three replace operations rewrites EVERY
non-overlapping occurrence of its pattern (`re.sub` with the default
count), not only the first; a pattern that is absent from the header is
silently skipped, leaving the text unchanged, and for backslash-free
replacement text the substitution never fails, so the page is still
written. -/
theorem c6_sub_all_occurrences :
    (∀ (pre suf rep x m1 y m2 z : Str), pre ≠ [] → suf ≠ [] →
      passable pre x = true → passable pre y = true →
      passable pre z = true →
      passable suf m1 = true → m1.all (fun ch => ch ≠ '\n') = true →
      passable suf m2 = true → m2.all (fun ch => ch ≠ '\n') = true →
      pySub pre suf rep
          (x ++ (pre ++ (m1 ++ (suf ++ (y ++ (pre ++ (m2 ++ (suf ++ z)))))))) =
        x ++ (rep ++ (y ++ (rep ++ z)))) ∧
    (∀ (pre suf rep h : Str), pre ≠ [] → passable pre h = true →
      pySub pre suf rep h = h) ∧
    (∀ (pre suf repl s : Str), repl.all (fun ch => ch ≠ '\\') = true →
      reSub pre suf repl s = .ok (pySub pre suf repl s)) := by
  refine ⟨?_, ?_, ?_⟩
  · intro pre suf rep x m1 y m2 z hpre hsuf hx hy hz hm1 hm1n hm2 hm2n
    exact pySub_two_occurrences rep x m1 y m2 z hpre hsuf hx hy hz hm1 hm1n
      hm2 hm2n
  · intro pre suf rep h hpre hh
    exact subAllGo_all_passable hpre hh _
  · intro pre suf repl s hbs
    rw [reSub, expandRepl_no_backslash hbs]

/-- C6 witness: both title elements of a two-placeholder header are
replaced, and a header without the pattern is returned unchanged. -/
theorem c6_sub_all_occurrences_witness :
    pySub titlePre titleSuf (str "NEW")
        (str "A" ++ (titlePre ++ (str "One" ++ (titleSuf ++
          (str "B" ++ (titlePre ++ (str "Two" ++ (titleSuf ++ str "C")))))))) =
      str "A" ++ (str "NEW" ++ (str "B" ++ (str "NEW" ++ str "C"))) ∧
    pySub titlePre titleSuf (str "NEW") (str "no pattern here") =
      str "no pattern here" := by
  constructor
  · exact c6_sub_all_occurrences.1 titlePre titleSuf (str "NEW") (str "A")
      (str "One") (str "B") (str "Two") (str "C") (by decide) (by decide)
      (by decide) (by decide) (by decide) (by decide) (by decide) (by decide)
      (by decide)
  · exact c6_sub_all_occurrences.2.1 titlePre titleSuf (str "NEW")
      (str "no pattern here") (by decide) (by decide)

/-! ### Claim C8 -/

/-- A parsed response missing only the `category` field. -/
def noCategoryFields : List (Str × Json) :=
  [(str "title", .str (str "Qq1")), (str "description", .str (str "Dd2")),
   (str "content_html", .str (str "Zz3")), (str "excerpt", .str (str "Ex5")),
   (str "slug", .str (str "slug1"))]

/-- Canonical run input with the response missing only `category`. -/
def noCategoryInput : RunInput :=
  { hasApiKey := true, template := canonTemplate,
    response := .ok (.obj noCategoryFields), blogsJson := .error (),
    sitemap := str "<urlset></urlset>", today := str "2026-10-12" }

/-- Canonical run input with an unparseable response. -/
def unparseableInput : RunInput :=
  { hasApiKey := true, template := canonTemplate, response := .error (),
    blogsJson := .error (), sitemap := [], today := [] }

/-- Canonical run input with the response missing `description` (and
`category`, `excerpt`), with `slug`, `content_html` and `title` present. -/
def noDescriptionInput : RunInput :=
  { hasApiKey := true, template := canonTemplate,
    response := .ok (.obj [(str "slug", .str (str "s1")),
      (str "content_html", .str (str "C")), (str "title", .str (str "T"))]),
    blogsJson := .error (), sitemap := [], today := [] }

set_option maxRecDepth 1000000 in
/-- C8 counterexample: a response that parses and misses only `category`.
The claim says the run aborts before any file mutation; in fact
`data["category"]` is read at line 112, after the page file was written
at line 104, so one artifact is written and then `KeyError` is raised. -/
theorem c8_counterexample :
    (generateBlog noCategoryInput).1.length = 1 ∧
    (generateBlog noCategoryInput).2 = some .keyError := by
  constructor
  · decide
  · decide

/-- C8 amended: an unparseable response is caught and the run returns
with no file writes; a response missing `slug`, `content_html`, `title`
or `description` raises `KeyError` - and one whose `content_html` is
present but not a string raises `TypeError` at line 81's `re.findall` -
before any file write; but a response missing only `category` or
`excerpt` raises `KeyError` only AFTER the page file has been written
(lines 112-113), leaving a partial artifact. -/
theorem c8_missing_fields :
    (∀ inp : RunInput, inp.response = .error () →
      (generateBlog inp).1 = []) ∧
    (∀ (inp : RunInput) (fs : List (Str × Json)),
      inp.hasApiKey = true → inp.response = .ok (.obj fs) →
      lookupF fs (str "slug") = none →
      (generateBlog inp).1 = [] ∧ (generateBlog inp).2 ≠ none) ∧
    (∀ (inp : RunInput) (fs : List (Str × Json)) (sl : Json),
      inp.hasApiKey = true → inp.response = .ok (.obj fs) →
      lookupF fs (str "slug") = some sl →
      lookupF fs (str "content_html") = none →
      (generateBlog inp).1 = [] ∧ (generateBlog inp).2 ≠ none) ∧
    (∀ (inp : RunInput) (fs : List (Str × Json)) (sl j : Json),
      inp.hasApiKey = true → inp.response = .ok (.obj fs) →
      lookupF fs (str "slug") = some sl →
      lookupF fs (str "content_html") = some j →
      (∀ s : Str, j ≠ .str s) →
      (generateBlog inp).1 = [] ∧ (generateBlog inp).2 ≠ none) ∧
    (∀ (inp : RunInput) (fs : List (Str × Json)) (sl : Json) (ct : Str),
      inp.hasApiKey = true → inp.response = .ok (.obj fs) →
      lookupF fs (str "slug") = some sl →
      lookupF fs (str "content_html") = some (.str ct) →
      lookupF fs (str "title") = none →
      (generateBlog inp).1 = [] ∧ (generateBlog inp).2 ≠ none) ∧
    (∀ (inp : RunInput) (fs : List (Str × Json)) (sl : Json) (ct t : Str),
      inp.hasApiKey = true → inp.response = .ok (.obj fs) →
      lookupF fs (str "slug") = some sl →
      lookupF fs (str "content_html") = some (.str ct) →
      lookupF fs (str "title") = some (.str t) →
      t.all (fun ch => ch ≠ '\\') = true →
      lookupF fs (str "description") = none →
      (generateBlog inp).1 = [] ∧ (generateBlog inp).2 ≠ none) ∧
    (∀ (inp : RunInput) (fs : List (Str × Json)) (sl ct t d hd ft : Str),
      inp.hasApiKey = true → inp.response = .ok (.obj fs) →
      extractLayout inp.template = .ok (hd, ft) →
      lookupF fs (str "slug") = some (.str sl) →
      sl.head? ≠ some '/' →
      lookupF fs (str "content_html") = some (.str ct) →
      lookupF fs (str "title") = some (.str t) →
      t.all (fun ch => ch ≠ '\\') = true →
      lookupF fs (str "description") = some (.str d) →
      d.all (fun ch => ch ≠ '\\') = true →
      lookupF fs (str "category") = none →
      (generateBlog inp).1.map (·.path) =
        [str "blog/" ++ (sl ++ str ".html")] ∧
      (generateBlog inp).2 = some .keyError) := by
  refine ⟨?_, ?_, ?_, ?_, ?_, ?_, ?_⟩
  · intro inp h
    rw [generateBlog]
    cases hkey : inp.hasApiKey with
    | false => simp
    | true =>
      simp only [Bool.true_eq_false, if_false]
      cases hext : extractLayout inp.template with
      | error e => simp
      | ok p =>
        obtain ⟨hd, ft⟩ := p
        rw [h]
  · intro inp fs hkey hresp hslug
    rw [generateBlog, hkey]
    simp only [Bool.true_eq_false, if_false]
    cases hext : extractLayout inp.template with
    | error e => simp
    | ok p =>
      obtain ⟨hd, ft⟩ := p
      rw [hresp]
      simp [getF, hslug]
  · intro inp fs sl hkey hresp hslug hcontent
    rw [generateBlog, hkey]
    simp only [Bool.true_eq_false, if_false]
    cases hext : extractLayout inp.template with
    | error e => simp
    | ok p =>
      obtain ⟨hd, ft⟩ := p
      rw [hresp]
      have hA : assembleRest hd ft fs = .error .keyError := by
        simp [assembleRest, Bind.bind, Except.bind, getF, hcontent]
      simp [getF, hslug, hA]
  · intro inp fs sl j hkey hresp hslug hcontent hns
    rw [generateBlog, hkey]
    simp only [Bool.true_eq_false, if_false]
    cases hext : extractLayout inp.template with
    | error e => simp
    | ok p =>
      obtain ⟨hd, ft⟩ := p
      rw [hresp]
      have hAs : asPyStr j = .error .typeError := by
        cases j with
        | str s => exact absurd rfl (hns s)
        | null => rfl
        | bool b => rfl
        | num n => rfl
        | arr es => rfl
        | obj fl => rfl
      have hA : assembleRest hd ft fs = .error .typeError := by
        simp [assembleRest, Bind.bind, Except.bind, getF, hcontent, hAs]
      simp [getF, hslug, hA]
  · intro inp fs sl ct hkey hresp hslug hcontent htitle
    rw [generateBlog, hkey]
    simp only [Bool.true_eq_false, if_false]
    cases hext : extractLayout inp.template with
    | error e => simp
    | ok p =>
      obtain ⟨hd, ft⟩ := p
      rw [hresp]
      have hA : assembleRest hd ft fs = .error .keyError := by
        simp [assembleRest, Bind.bind, Except.bind, getF, hcontent, asPyStr,
          htitle]
      simp [getF, hslug, hA]
  · intro inp fs sl ct t hkey hresp hslug hcontent htitle htb hdesc
    rw [generateBlog, hkey]
    simp only [Bool.true_eq_false, if_false]
    cases hext : extractLayout inp.template with
    | error e => simp
    | ok p =>
      obtain ⟨hd, ft⟩ := p
      rw [hresp]
      have hBS1 : (str "<title>" ++ (t ++ str " | StampCircle</title>")).all
          (fun ch => ch ≠ '\\') = true := by
        simp only [List.all_append, Bool.and_eq_true]
        exact ⟨by decide, htb, by decide⟩
      have hBS2 : (str "<meta name=\"title\" content=\"" ++
          (t ++ str "\">")).all (fun ch => ch ≠ '\\') = true := by
        simp only [List.all_append, Bool.and_eq_true]
        exact ⟨by decide, htb, by decide⟩
      have hr1 : reSub titlePre titleSuf
          (str "<title>" ++ (t ++ str " | StampCircle</title>")) hd =
          .ok (pySub titlePre titleSuf
            (str "<title>" ++ (t ++ str " | StampCircle</title>")) hd) := by
        rw [reSub, expandRepl_no_backslash hBS1]
      have hr2 : ∀ s : Str, reSub metaTitlePre attrSuf
          (str "<meta name=\"title\" content=\"" ++ (t ++ str "\">")) s =
          .ok (pySub metaTitlePre attrSuf
            (str "<meta name=\"title\" content=\"" ++ (t ++ str "\">")) s) := by
        intro s
        rw [reSub, expandRepl_no_backslash hBS2]
      have hA : assembleRest hd ft fs = .error .keyError := by
        simp [assembleRest, Bind.bind, Except.bind, getF, hcontent, asPyStr,
          htitle, fmt, hr1, hr2, hdesc]
      simp [getF, hslug, hA]
  · intro inp fs sl ct t d hd ft hkey hresp hext hslug hsl hcontent htitle htb
      hdesc hdb hcat
    rw [generateBlog, hkey]
    simp only [Bool.true_eq_false, if_false]
    rw [hext, hresp]
    have hBS1 : (str "<title>" ++ (t ++ str " | StampCircle</title>")).all
        (fun ch => ch ≠ '\\') = true := by
      simp only [List.all_append, Bool.and_eq_true]
      exact ⟨by decide, htb, by decide⟩
    have hBS2 : (str "<meta name=\"title\" content=\"" ++
        (t ++ str "\">")).all (fun ch => ch ≠ '\\') = true := by
      simp only [List.all_append, Bool.and_eq_true]
      exact ⟨by decide, htb, by decide⟩
    have hBS3 : (str "<meta name=\"description\" content=\"" ++
        (d ++ str "\">")).all (fun ch => ch ≠ '\\') = true := by
      simp only [List.all_append, Bool.and_eq_true]
      exact ⟨by decide, hdb, by decide⟩
    have hr1 : reSub titlePre titleSuf
        (str "<title>" ++ (t ++ str " | StampCircle</title>")) hd =
        .ok (pySub titlePre titleSuf
          (str "<title>" ++ (t ++ str " | StampCircle</title>")) hd) := by
      rw [reSub, expandRepl_no_backslash hBS1]
    have hr2 : ∀ s : Str, reSub metaTitlePre attrSuf
        (str "<meta name=\"title\" content=\"" ++ (t ++ str "\">")) s =
        .ok (pySub metaTitlePre attrSuf
          (str "<meta name=\"title\" content=\"" ++ (t ++ str "\">")) s) := by
      intro s
      rw [reSub, expandRepl_no_backslash hBS2]
    have hr3 : ∀ s : Str, reSub metaDescPre attrSuf
        (str "<meta name=\"description\" content=\"" ++ (d ++ str "\">")) s =
        .ok (pySub metaDescPre attrSuf
          (str "<meta name=\"description\" content=\"" ++ (d ++ str "\">")) s) := by
      intro s
      rw [reSub, expandRepl_no_backslash hBS3]
    have hA : ∃ page, assembleRest hd ft fs = .ok page := by
      have hok : (assembleRest hd ft fs).isOk = true := by
        simp [assembleRest, Bind.bind, Except.bind, getF, hcontent, asPyStr,
          htitle, fmt, hr1, hr2, hr3, hdesc, Pure.pure, Except.pure,
          Except.isOk, Except.toBool]
      cases hcase : assembleRest hd ft fs with
      | error e =>
        rw [hcase] at hok
        simp [Except.isOk, Except.toBool] at hok
      | ok page => exact ⟨page, rfl⟩
    obtain ⟨page, hA⟩ := hA
    have hpath : osPathJoin (str "blog") (sl ++ str ".html") =
        str "blog/" ++ (sl ++ str ".html") := by
      cases sl with
      | nil => rfl
      | cons c cs =>
        have hc : ¬c = '/' := by
          intro h
          exact hsl (by rw [h]; rfl)
        rw [show ((c :: cs : Str) ++ str ".html") = c :: (cs ++ str ".html")
          from rfl, osPathJoin, if_neg hc]
        rfl
    simp [getF, hslug, hA, htitle, hcat, fmt, hpath]

/-- C8 witness: concrete inputs for the unparseable-response case and the
missing-description case. -/
theorem c8_missing_fields_witness :
    (generateBlog unparseableInput).1 = [] ∧
    ((generateBlog noDescriptionInput).1 = [] ∧
      (generateBlog noDescriptionInput).2 ≠ none) := by
  constructor
  · exact c8_missing_fields.1 _ rfl
  · exact c8_missing_fields.2.2.2.2.2.1 _ _ (.str (str "s1")) (str "C")
      (str "T") rfl rfl rfl rfl rfl (by decide) rfl

/-! ### Claim C10 -/

set_option maxRecDepth 1000000 in
/-- C10: when blogs.json parses to a non-array JSON value (any object),
the run does NOT treat it as an empty list: the page file has already
been written, then `posts.insert` raises `AttributeError`, and neither
blogs.json nor the sitemap is written - the three artifacts are left
inconsistent. -/
theorem c10_non_array_index (fs' : List (Str × Json)) :
    (generateBlog (canonInput (.ok (.obj fs'))
        (str "<urlset></urlset>"))).1.map (·.path) =
      [str "blog/slug1.html"] ∧
    (generateBlog (canonInput (.ok (.obj fs'))
        (str "<urlset></urlset>"))).2 = some .attributeError := by
  constructor
  · rfl
  · rfl

end SC
